import Mathlib

/-!
Verification of the zaedamall_autopost repository: the spreadsheet work
queue, the uploader's control flow, the navigation and submission
policies, the login heuristic, and the content generator, shallowly
embedded from the Python sources under tools/.

Modelling conventions:
* Python strings are sequences of Unicode code points.  Where proofs
  range over arbitrary strings they are modelled as `List Char`,
  elsewhere as `String`.  `str.strip` / `str.upper` / `str.lower` are
  modelled on the character ranges that occur in the scripts (ASCII
  letters; the ASCII members of Python's whitespace class).
* An openpyxl worksheet is modelled by its data rows (sheet rows
  2..max_row; row 1 is the header).  Cell values are `Option String`
  (None or a string).  The column-D timestamp cell is modelled at the
  minute resolution of the stored format "%Y-%m-%d %H:%M", as an
  `Option Nat` of minutes on a monotone clock.
* Selenium interactions are modelled by oracle records saying which DOM
  lookups succeed; the scripts' control flow (fallback order, try/except,
  exit codes) is embedded faithfully from their `main` functions.
-/

set_option maxRecDepth 8000

deriving instance DecidableEq for Except

/-! ## Python string primitives (tools/*.py share these idioms) -/

/-- The ASCII members of Python's whitespace class, as stripped by
`str.strip()` and matched by the regex class used in `re.sub`. -/
def pyIsSpace (c : Char) : Bool :=
  c == ' ' || c == '\t' || c == '\n' || c == '\r' ||
  c == Char.ofNat 11 || c == Char.ofNat 12

/-- Left part of Python `str.strip()`. -/
def lstripL (l : List Char) : List Char := l.dropWhile pyIsSpace

/-- Right part of Python `str.strip()` (also `str.rstrip()`). -/
def rstripL (l : List Char) : List Char := (l.reverse.dropWhile pyIsSpace).reverse

/-- Python `str.strip()` on code-point lists. -/
def pyStripL (l : List Char) : List Char := rstripL (lstripL l)

/-- Python `str.strip()`. -/
def pyStrip (s : String) : String := ⟨pyStripL s.data⟩

/-- Python `str.upper()` on the ASCII range (identity on Hangul, as in
Python). -/
def pyUpper (s : String) : String := ⟨s.data.map Char.toUpper⟩

/-- Python `(cell.value or "")`: a missing (None) cell reads as "". -/
def cellStr (v : Option String) : String := v.getD ""

/-! ## The queue workbook (docs/data.xlsx) -/

/-- One data row of the queue sheet: columns A (title), B (body),
C (status), D (timestamp).  The D cell is a time at minute resolution. -/
structure Row where
  a : Option String
  b : Option String
  c : Option String
  d : Option Nat
deriving DecidableEq

/-- The queue worksheet: its data rows, in sheet order; list position k
holds sheet row k+2 (row 1 is the header). -/
structure Worksheet where
  rows : List Row
deriving DecidableEq

/-- openpyxl `ws.max_row`: the last used sheet row (header included). -/
def max_row (ws : Worksheet) : Nat := ws.rows.length + 1

/-- The row at sheet index i (i ≥ 2), if present. -/
def rowAt (ws : Worksheet) (i : Nat) : Option Row := ws.rows[i - 2]?

/-- tools/auto_write.py:80-84 (= tools/mall_auto_write.py:56-60): the row
test inside `load_next_row`'s loop — stripped title and body non-empty,
stripped upper-cased status not one of DONE/PUBLISHED/SKIP. -/
def isPendingRow (r : Row) : Bool :=
  let title := pyStrip (cellStr r.a)
  let body := pyStrip (cellStr r.b)
  let status := pyUpper (pyStrip (cellStr r.c))
  !(title == "") && !(body == "") &&
    !(status == "DONE" || status == "PUBLISHED" || status == "SKIP")

/-- The scan loop `for i in range(2, ws.max_row + 1)` of `load_next_row`,
carrying the sheet index of the head row. -/
def loadNextRowGo : Nat → List Row → Option (Nat × String × String)
  | _, [] => none
  | i, r :: rest =>
    if isPendingRow r then
      some (i, pyStrip (cellStr r.a), pyStrip (cellStr r.b))
    else loadNextRowGo (i + 1) rest

/-- tools/auto_write.py:75-86 `load_next_row`, after the workbook is open:
returns the first pending row (sheet index, stripped title, stripped
body), or `none` when no row qualifies (the `return wb, ws, None, None,
None` branch). -/
def load_next_row (ws : Worksheet) : Option (Nat × String × String) :=
  loadNextRowGo 2 ws.rows

/-- Errors raised by the Excel helpers. -/
inductive XlsxError where
  | fileNotFound
deriving DecidableEq

/-- The file system seen by the scripts: the queue file is either absent
or holds a worksheet. -/
def QueueFile := Option Worksheet

/-- `openpyxl.load_workbook(XLSX)` guarded by the `XLSX.exists()` check of
`load_next_row` (tools/auto_write.py:76-78): a missing file raises
FileNotFoundError. -/
def load_workbook : Option Worksheet → Except XlsxError Worksheet
  | none => .error .fileNotFound
  | some ws => .ok ws

/-- tools/auto_write.py:75-86 `load_next_row` including its file check:
on an existing file it opens the workbook and scans; on a missing file it
raises. -/
def load_next_row_fs (fs : Option Worksheet) :
    Except XlsxError (Worksheet × Option (Nat × String × String)) :=
  (load_workbook fs).map fun ws => (ws, load_next_row ws)

/-! ### Scan-loop lemmas -/

theorem loadNextRowGo_none (l : List Row) : ∀ i,
    (loadNextRowGo i l = none ↔ ∀ r ∈ l, isPendingRow r = false) := by
  induction l with
  | nil => intro i; simp [loadNextRowGo]
  | cons r rest ih =>
    intro i
    by_cases h : isPendingRow r
    · simp [loadNextRowGo, h]
    · simp only [loadNextRowGo, if_neg h, ih (i + 1), List.mem_cons]
      constructor
      · rintro hall r' (rfl | hr')
        · exact Bool.eq_false_iff.mpr h
        · exact hall r' hr'
      · intro hall r' hr'
        exact hall r' (Or.inr hr')

theorem loadNextRowGo_some (l : List Row) : ∀ i j t b,
    loadNextRowGo i l = some (j, t, b) →
    i ≤ j ∧
    (∃ r, l[j - i]? = some r ∧ isPendingRow r = true ∧
      t = pyStrip (cellStr r.a) ∧ b = pyStrip (cellStr r.b)) ∧
    (∀ k r', k < j - i → l[k]? = some r' → isPendingRow r' = false) := by
  induction l with
  | nil => intro i j t b h; simp [loadNextRowGo] at h
  | cons r rest ih =>
    intro i j t b h
    by_cases hp : isPendingRow r
    · simp only [loadNextRowGo, if_pos hp, Option.some.injEq, Prod.mk.injEq] at h
      obtain ⟨rfl, rfl, rfl⟩ := h
      refine ⟨Nat.le_refl _, ⟨r, ?_, hp, rfl, rfl⟩, ?_⟩
      · simp
      · intro k r' hk
        omega
    · simp only [loadNextRowGo, if_neg hp] at h
      obtain ⟨hij, ⟨r', hr', hp', ht, hb⟩, hearlier⟩ := ih (i + 1) j t b h
      have hij' : i ≤ j := by omega
      have hsub : j - i = (j - (i + 1)) + 1 := by omega
      refine ⟨hij', ⟨r', ?_, hp', ht, hb⟩, ?_⟩
      · rw [hsub]; simpa using hr'
      · intro k r'' hk hget
        match k with
        | 0 =>
          simp only [List.getElem?_cons_zero, Option.some.injEq] at hget
          subst hget
          exact Bool.eq_false_iff.mpr hp
        | k' + 1 =>
          simp only [List.getElem?_cons_succ] at hget
          exact hearlier k' r'' (by omega) hget

/-- Claim C1: for every queue file, `load_next_row` scans the data rows
top to bottom starting at sheet row 2 and returns the first row whose
stripped title and stripped body are both non-empty and whose stripped,
upper-cased status is not DONE, PUBLISHED or SKIP (any other status,
including an empty or absent cell, counts as pending); it returns `none`
exactly when no row qualifies. -/
theorem c1_load_next_row (ws : Worksheet) :
    (∀ j t b, load_next_row ws = some (j, t, b) →
      2 ≤ j ∧
      (∃ r, rowAt ws j = some r ∧ isPendingRow r = true ∧
        t = pyStrip (cellStr r.a) ∧ b = pyStrip (cellStr r.b)) ∧
      (∀ k r', 2 ≤ k → k < j → rowAt ws k = some r' →
        isPendingRow r' = false)) ∧
    (load_next_row ws = none ↔ ∀ r ∈ ws.rows, isPendingRow r = false) := by
  constructor
  · intro j t b h
    obtain ⟨hij, ⟨r, hr, hp, ht, hb⟩, hearlier⟩ :=
      loadNextRowGo_some ws.rows 2 j t b h
    exact ⟨hij, ⟨r, hr, hp, ht, hb⟩,
      fun k r' hk2 hkj hget => hearlier (k - 2) r' (by omega) hget⟩
  · exact loadNextRowGo_none ws.rows 2

/-- A concrete queue: row 2 is finished (status "done", matched
case-insensitively), row 3 is pending (no status). -/
def wsC1 : Worksheet :=
  ⟨[⟨some "T1", some "B1", some "done", some 100⟩,
    ⟨some "T2", some "B2", none, none⟩]⟩

theorem c1_load_next_row_witness :
    2 ≤ 3 ∧
    (∃ r, rowAt wsC1 3 = some r ∧ isPendingRow r = true ∧
      "T2" = pyStrip (cellStr r.a) ∧ "B2" = pyStrip (cellStr r.b)) ∧
    (∀ k r', 2 ≤ k → k < 3 → rowAt wsC1 k = some r' →
      isPendingRow r' = false) :=
  (c1_load_next_row wsC1).1 3 "T2" "B2" (by decide)

/-- Claim C9: when the queue file does not exist, `load_next_row` raises
FileNotFoundError instead of returning the none result; on an existing
file it never raises, and the none result occurs exactly when the file
has no pending row. -/
theorem c9_load_next_row_fs :
    load_next_row_fs none = .error .fileNotFound ∧
    (∀ ws : Worksheet, load_next_row_fs (some ws) = .ok (ws, load_next_row ws)) ∧
    (∀ ws : Worksheet,
      load_next_row_fs (some ws) = .ok (ws, none) ↔
        ∀ r ∈ ws.rows, isPendingRow r = false) := by
  refine ⟨rfl, fun ws => rfl, fun ws => ?_⟩
  rw [show load_next_row_fs (some ws) = .ok (ws, load_next_row ws) from rfl]
  constructor
  · intro h
    have hsnd : load_next_row ws = none :=
      congrArg Prod.snd (Except.ok.inj h)
    exact (loadNextRowGo_none ws.rows 2).mp hsnd
  · intro h
    have hnone : load_next_row ws = none :=
      (loadNextRowGo_none ws.rows 2).mpr h
    rw [hnone]

/-- An all-terminal queue for the C9 witness. -/
def wsC9 : Worksheet := ⟨[⟨some "T1", some "B1", some "DONE", some 100⟩]⟩

theorem c9_load_next_row_fs_witness :
    load_next_row_fs (some wsC9) = .ok (wsC9, none) :=
  (c9_load_next_row_fs.2.2 wsC9).mpr (by decide)

/-! ## mark_done (tools/auto_write.py:88-91 = tools/mall_auto_write.py:65-68) -/

/-- Replace the list element at position n by `f` of it (other positions
unchanged); used to model the two cell assignments of `mark_done`. -/
def modifyAt (f : Row → Row) : Nat → List Row → List Row
  | _, [] => []
  | 0, r :: rs => f r :: rs
  | n + 1, r :: rs => r :: modifyAt f n rs

/-- tools/auto_write.py:88-91 `mark_done`: set the status cell of sheet
row `row` to "DONE" and its timestamp cell to the current time (the code
stores `datetime.datetime.now().strftime("%Y-%m-%d %H:%M")`; `now` is
that invocation instant, at the minute resolution of the format). -/
def mark_done (ws : Worksheet) (row : Nat) (now : Nat) : Worksheet :=
  ⟨modifyAt (fun r => { r with c := some "DONE", d := some now }) (row - 2) ws.rows⟩

/-- The `wb.save(XLSX)` call at the end of `mark_done`: the file on disk
becomes exactly the in-memory workbook. -/
def wb_save (ws : Worksheet) : Option Worksheet := some ws

theorem modifyAt_getElem_self (f : Row → Row) :
    ∀ (l : List Row) (n : Nat), (modifyAt f n l)[n]? = (l[n]?).map f := by
  intro l
  induction l with
  | nil => intro n; simp [modifyAt]
  | cons r rs ih =>
    intro n
    match n with
    | 0 => simp [modifyAt]
    | n + 1 => simpa [modifyAt] using ih n

theorem modifyAt_getElem_ne (f : Row → Row) :
    ∀ (l : List Row) (n k : Nat), k ≠ n → (modifyAt f n l)[k]? = l[k]? := by
  intro l
  induction l with
  | nil => intro n k _; simp [modifyAt]
  | cons r rs ih =>
    intro n k hk
    match n, k with
    | 0, 0 => exact absurd rfl hk
    | 0, k + 1 => simp [modifyAt]
    | n + 1, 0 => simp [modifyAt]
    | n + 1, k + 1 => simpa [modifyAt] using ih n k (by omega)

/-- Claim C2: `mark_done` on row r sets that row's status cell to the
terminal value "DONE" and its timestamp cell to a time no earlier than
the invocation instant, leaves every other cell of the row and every
cell of every other row unchanged, and persists the workbook so that
re-loading the saved file reflects exactly this change. -/
theorem c2_mark_done (ws : Worksheet) (row now : Nat)
    (h2 : 2 ≤ row) (hlt : row - 2 < ws.rows.length) :
    (∃ r, rowAt ws row = some r ∧
      rowAt (mark_done ws row now) row =
        some { r with c := some "DONE", d := some now }) ∧
    (∀ r', rowAt (mark_done ws row now) row = some r' →
      r'.c = some "DONE" ∧ ∃ t, r'.d = some t ∧ now ≤ t) ∧
    (∀ j, 2 ≤ j → j ≠ row →
      rowAt (mark_done ws row now) j = rowAt ws j) ∧
    load_workbook (wb_save (mark_done ws row now)) = .ok (mark_done ws row now) := by
  obtain ⟨r, hr⟩ : ∃ r, ws.rows[row - 2]? = some r := by
    rw [List.getElem?_eq_getElem hlt]
    exact ⟨_, rfl⟩
  refine ⟨⟨r, hr, ?_⟩, ?_, ?_, rfl⟩
  · show (modifyAt _ (row - 2) ws.rows)[row - 2]? = _
    rw [modifyAt_getElem_self, hr]; rfl
  · intro r' hr'
    have hself : (modifyAt (fun r => { r with c := some "DONE", d := some now })
        (row - 2) ws.rows)[row - 2]? = some { r with c := some "DONE", d := some now } := by
      rw [modifyAt_getElem_self, hr]; rfl
    have : r' = { r with c := some "DONE", d := some now } := by
      have := hr'.symm.trans hself
      exact Option.some.inj this
    subst this
    exact ⟨rfl, now, rfl, Nat.le_refl now⟩
  · intro j hj2 hjne
    show (modifyAt _ (row - 2) ws.rows)[j - 2]? = ws.rows[j - 2]?
    exact modifyAt_getElem_ne _ ws.rows (row - 2) (j - 2) (by omega)

/-- A one-row queue for the C2 witness. -/
def wsC2 : Worksheet := ⟨[⟨some "T", some "B", none, none⟩]⟩

theorem c2_mark_done_witness :
    (∃ r, rowAt wsC2 2 = some r ∧
      rowAt (mark_done wsC2 2 7) 2 =
        some { r with c := some "DONE", d := some 7 }) ∧
    (∀ r', rowAt (mark_done wsC2 2 7) 2 = some r' →
      r'.c = some "DONE" ∧ ∃ t, r'.d = some t ∧ 7 ≤ t) ∧
    (∀ j, 2 ≤ j → j ≠ 2 →
      rowAt (mark_done wsC2 2 7) j = rowAt wsC2 j) ∧
    load_workbook (wb_save (mark_done wsC2 2 7)) = .ok (mark_done wsC2 2 7) :=
  c2_mark_done wsC2 2 7 (by decide) (by decide)

/-! ## create_contents --only-empty row selection (tools/create_contents.py:230-251) -/

/-- tools/create_contents.py:234-239: the row test of the `--only-empty`
scan — stripped title and body both empty, stripped upper-cased status
different from "SKIP". -/
def isFillableRow (r : Row) : Bool :=
  (pyStrip (cellStr r.a) == "") && (pyStrip (cellStr r.b) == "") &&
    !(pyUpper (pyStrip (cellStr r.c)) == "SKIP")

/-- The scan loop `for i in range(2, ws.max_row + 1)` of the
`--only-empty` branch, carrying the sheet index of the head row. -/
def findEmptyGo : Nat → List Row → Option Nat
  | _, [] => none
  | i, r :: rest => if isFillableRow r then some i else findEmptyGo (i + 1) rest

/-- tools/create_contents.py:232-242: in `--only-empty` mode the target
row is the first fillable row, and `ws.max_row + 1` (a fresh row below
the last used one) when none exists. -/
def select_only_empty_row (ws : Worksheet) : Nat :=
  match findEmptyGo 2 ws.rows with
  | some i => i
  | none => max_row ws + 1

/-- tools/create_contents.py:248-251: write the generated post into the
chosen row — title in A, body in B, empty status in C, generation time in
D.  Writing at `max_row + 1` extends the sheet by one row, as openpyxl
does on assignment past `max_row`. -/
def write_post (ws : Worksheet) (i : Nat) (title body : String) (now : Nat) : Worksheet :=
  if i - 2 < ws.rows.length then
    ⟨modifyAt (fun _ => ⟨some title, some body, some "", some now⟩) (i - 2) ws.rows⟩
  else
    ⟨ws.rows ++ [⟨some title, some body, some "", some now⟩]⟩

theorem findEmptyGo_none (l : List Row) : ∀ i,
    (findEmptyGo i l = none ↔ ∀ r ∈ l, isFillableRow r = false) := by
  induction l with
  | nil => intro i; simp [findEmptyGo]
  | cons r rest ih =>
    intro i
    by_cases h : isFillableRow r
    · simp [findEmptyGo, h]
    · simp only [findEmptyGo, if_neg h, ih (i + 1), List.mem_cons]
      constructor
      · rintro hall r' (rfl | hr')
        · exact Bool.eq_false_iff.mpr h
        · exact hall r' hr'
      · intro hall r' hr'
        exact hall r' (Or.inr hr')

theorem findEmptyGo_some (l : List Row) : ∀ i j,
    findEmptyGo i l = some j →
    i ≤ j ∧
    (∃ r, l[j - i]? = some r ∧ isFillableRow r = true) ∧
    (∀ k r', k < j - i → l[k]? = some r' → isFillableRow r' = false) := by
  induction l with
  | nil => intro i j h; simp [findEmptyGo] at h
  | cons r rest ih =>
    intro i j h
    by_cases hp : isFillableRow r
    · simp only [findEmptyGo, if_pos hp, Option.some.injEq] at h
      subst h
      refine ⟨Nat.le_refl _, ⟨r, by simp, hp⟩, ?_⟩
      intro k r' hk
      omega
    · simp only [findEmptyGo, if_neg hp] at h
      obtain ⟨hij, ⟨r', hr', hp'⟩, hearlier⟩ := ih (i + 1) j h
      have hsub : j - i = (j - (i + 1)) + 1 := by omega
      refine ⟨by omega, ⟨r', by rw [hsub]; simpa using hr', hp'⟩, ?_⟩
      intro k r'' hk hget
      match k with
      | 0 =>
        simp only [List.getElem?_cons_zero, Option.some.injEq] at hget
        subst hget
        exact Bool.eq_false_iff.mpr hp
      | k' + 1 =>
        simp only [List.getElem?_cons_succ] at hget
        exact hearlier k' r'' (by omega) hget

theorem findEmptyGo_some_le (l : List Row) : ∀ i j,
    findEmptyGo i l = some j → j < i + l.length := by
  induction l with
  | nil => intro i j h; simp [findEmptyGo] at h
  | cons r rest ih =>
    intro i j h
    by_cases hp : isFillableRow r
    · simp only [findEmptyGo, if_pos hp, Option.some.injEq] at h
      subst h; simp
    · simp only [findEmptyGo, if_neg hp] at h
      have := ih (i + 1) j h
      simpa [Nat.add_assoc, Nat.add_comm 1 rest.length] using this

/-- Claim C10: in `--only-empty` mode the generator writes each post into
the first sheet row whose title and body are both empty and whose status
is not SKIP; when no such row exists, the post goes to a fresh row just
below the last used one (`max_row + 1`); a row whose status is SKIP is
never chosen, even with empty title and body; the written row carries the
post and an empty status, and all other rows are unchanged. -/
theorem c10_select_only_empty (ws : Worksheet) (title body : String) (now : Nat) :
    (∀ k r', 2 ≤ k → k < select_only_empty_row ws → rowAt ws k = some r' →
      isFillableRow r' = false) ∧
    (select_only_empty_row ws ≤ max_row ws →
      ∃ r, rowAt ws (select_only_empty_row ws) = some r ∧ isFillableRow r = true) ∧
    ((∀ r ∈ ws.rows, isFillableRow r = false) →
      select_only_empty_row ws = max_row ws + 1) ∧
    (∀ r, rowAt ws (select_only_empty_row ws) = some r →
      ¬ pyUpper (pyStrip (cellStr r.c)) = "SKIP") ∧
    (rowAt (write_post ws (select_only_empty_row ws) title body now)
        (select_only_empty_row ws) = some ⟨some title, some body, some "", some now⟩) ∧
    (∀ k, 2 ≤ k → k ≠ select_only_empty_row ws →
      rowAt (write_post ws (select_only_empty_row ws) title body now) k = rowAt ws k) := by
  have hfill_skip : ∀ r : Row, isFillableRow r = true →
      ¬ pyUpper (pyStrip (cellStr r.c)) = "SKIP" := by
    intro r hr hskip
    rw [isFillableRow, hskip] at hr
    simp at hr
  rcases hgo : findEmptyGo 2 ws.rows with _ | j
  · -- no fillable row: fresh row at max_row + 1
    have hsel : select_only_empty_row ws = max_row ws + 1 := by
      rw [select_only_empty_row, hgo]
    have hall : ∀ r ∈ ws.rows, isFillableRow r = false :=
      (findEmptyGo_none ws.rows 2).mp hgo
    have hidx : max_row ws + 1 - 2 = ws.rows.length := by
      rw [max_row]; omega
    refine ⟨?_, ?_, fun _ => hsel, ?_, ?_, ?_⟩
    · intro k r' _ _ hget
      exact hall r' (List.getElem?_mem hget)
    · intro hle
      rw [hsel, max_row] at hle
      omega
    · intro r hget
      rw [hsel] at hget
      unfold rowAt at hget
      rw [hidx, List.getElem?_eq_none (Nat.le_refl _)] at hget
      exact Option.noConfusion hget
    · rw [hsel, write_post, hidx, if_neg (by omega), rowAt, hidx]
      simp
    · intro k hk2 hkne
      rw [hsel] at hkne ⊢
      rw [write_post, hidx, if_neg (by omega), rowAt, rowAt]
      rcases Nat.lt_trichotomy (k - 2) ws.rows.length with hlt | heq | hgt
      · rw [List.getElem?_append_left hlt]
      · exact absurd (by rw [max_row]; omega) hkne
      · have h1 : ws.rows[k - 2]? = none := List.getElem?_eq_none (by omega)
        have h2 : (ws.rows ++ [(⟨some title, some body, some "", some now⟩ : Row)])[k - 2]? = none := by
          apply List.getElem?_eq_none
          simp only [List.length_append, List.length_cons, List.length_nil]
          omega
        rw [h1, h2]
  · -- first fillable row found at sheet index j
    have hsel : select_only_empty_row ws = j := by
      rw [select_only_empty_row, hgo]
    obtain ⟨h2j, ⟨r, hr, hfill⟩, hearlier⟩ := findEmptyGo_some ws.rows 2 j hgo
    have hjlt : j - 2 < ws.rows.length := by
      have := findEmptyGo_some_le ws.rows 2 j hgo
      omega
    refine ⟨?_, fun _ => ⟨r, by rw [hsel]; exact hr, hfill⟩, ?_, ?_, ?_, ?_⟩
    · intro k r' hk2 hkj hget
      rw [hsel] at hkj
      exact hearlier (k - 2) r' (by omega) hget
    · intro hall
      have := (findEmptyGo_none ws.rows 2).mpr hall
      rw [hgo] at this
      exact absurd this (by simp)
    · intro r' hget
      rw [hsel] at hget
      have : r' = r := Option.some.inj (hget.symm.trans hr)
      subst this
      exact hfill_skip r' hfill
    · rw [hsel, write_post, if_pos hjlt, rowAt]
      show (modifyAt _ (j - 2) ws.rows)[j - 2]? = _
      rw [modifyAt_getElem_self, hr]; rfl
    · intro k hk2 hkne
      rw [hsel] at hkne ⊢
      rw [write_post, if_pos hjlt, rowAt, rowAt]
      exact modifyAt_getElem_ne _ ws.rows (j - 2) (k - 2) (by omega)

/-- A queue with a SKIP row that has empty title and body (row 2) and a
genuinely empty row (row 3), for the C10 witness. -/
def wsC10 : Worksheet :=
  ⟨[⟨none, none, some "SKIP", none⟩, ⟨some "", none, none, none⟩]⟩

theorem c10_select_only_empty_witness :
    (∀ k r', 2 ≤ k → k < select_only_empty_row wsC10 → rowAt wsC10 k = some r' →
      isFillableRow r' = false) ∧
    (select_only_empty_row wsC10 ≤ max_row wsC10 →
      ∃ r, rowAt wsC10 (select_only_empty_row wsC10) = some r ∧ isFillableRow r = true) ∧
    ((∀ r ∈ wsC10.rows, isFillableRow r = false) →
      select_only_empty_row wsC10 = max_row wsC10 + 1) ∧
    (∀ r, rowAt wsC10 (select_only_empty_row wsC10) = some r →
      ¬ pyUpper (pyStrip (cellStr r.c)) = "SKIP") ∧
    (rowAt (write_post wsC10 (select_only_empty_row wsC10) "T" "B" 9)
        (select_only_empty_row wsC10) = some ⟨some "T", some "B", some "", some 9⟩) ∧
    (∀ k, 2 ≤ k → k ≠ select_only_empty_row wsC10 →
      rowAt (write_post wsC10 (select_only_empty_row wsC10) "T" "B" 9) k = rowAt wsC10 k) :=
  c10_select_only_empty wsC10 "T" "B" 9

/-! ## Substring search (Python's `in` on strings) -/

/-- Python `needle in hay` on code-point lists: some suffix of `hay` has
`needle` as a prefix. -/
def containsSub (needle hay : List Char) : Bool :=
  hay.tails.any fun s => needle.isPrefixOf s

/-- Python `str.lower()` on the ASCII range (identity on Hangul, as in
Python). -/
def pyLower (l : List Char) : List Char := l.map Char.toLower

/-! ## is_logged_in (tools/mall_auto_write.py:120-131, tools/auto_write.py:155-176) -/

/-- The page state read by mall_auto_write's `is_logged_in`: the raw page
source, and the number of anchors matched by
`//a[contains(@href,'logout') or contains(.,'로그아웃')]`. -/
structure PageM where
  html : List Char
  logoutAnchors : Nat

/-- tools/mall_auto_write.py:120-131 `is_logged_in`: true when the page
source contains "로그아웃", or its lower-cased source contains "logout",
or a logout-matching anchor exists. -/
def is_logged_in_mall (p : PageM) : Bool :=
  containsSub "로그아웃".data p.html ||
    containsSub "logout".data (pyLower p.html) ||
    decide (0 < p.logoutAnchors)

/-- The page state read by auto_write's `is_logged_in`: the number of
anchors matched by `//a[contains(.,'로그아웃') or contains(.,'Logout')]`,
the number of write-button elements, and whether the first write button
is enabled. -/
structure PageA where
  logoutAnchors : Nat
  writeButtons : Nat
  firstWriteEnabled : Bool

/-- tools/auto_write.py:155-176 `is_logged_in`: true when a logout anchor
element exists, otherwise the enabled state of the first write button
when one exists, otherwise false. -/
def is_logged_in_aw (p : PageA) : Bool :=
  if 0 < p.logoutAnchors then true
  else if 0 < p.writeButtons then p.firstWriteEnabled
  else false

/-- Counterexample to claim C6: a page whose source contains "로그인" and
not "로그아웃" on which mall_auto_write's `is_logged_in` still returns
true, because the lower-cased source contains the ASCII substring
"logout" (the code's second test). -/
def pageC6 : PageM := ⟨"로그인 …/logout.php".data, 0⟩

theorem c6_is_logged_in_cex :
    containsSub "로그인".data pageC6.html = true ∧
    containsSub "로그아웃".data pageC6.html = false ∧
    is_logged_in_mall pageC6 = true := by decide

/-- Claim C6, corrected: mall_auto_write's `is_logged_in` returns true
whenever the page source contains "로그아웃", and returns false on a page
that contains neither "로그아웃" nor (case-insensitively) "logout" and
has no logout anchor — merely containing "로그인" does not force a false
result.  auto_write's `is_logged_in` keys on elements instead: true when
a 로그아웃/Logout anchor exists, false when no such anchor exists and
there is no enabled write button. -/
theorem c6_is_logged_in (pm : PageM) (pa : PageA) :
    (containsSub "로그아웃".data pm.html = true → is_logged_in_mall pm = true) ∧
    (containsSub "로그아웃".data pm.html = false →
      containsSub "logout".data (pyLower pm.html) = false →
      pm.logoutAnchors = 0 → is_logged_in_mall pm = false) ∧
    (0 < pa.logoutAnchors → is_logged_in_aw pa = true) ∧
    (pa.logoutAnchors = 0 → (pa.writeButtons = 0 ∨ pa.firstWriteEnabled = false) →
      is_logged_in_aw pa = false) := by
  refine ⟨?_, ?_, ?_, ?_⟩
  · intro h; simp [is_logged_in_mall, h]
  · intro h1 h2 h3; simp [is_logged_in_mall, h1, h2, h3]
  · intro h; simp [is_logged_in_aw, h]
  · intro h1 h2
    rcases h2 with h2 | h2 <;> simp [is_logged_in_aw, h1, h2]

theorem c6_is_logged_in_witness :
    is_logged_in_mall ⟨"환영합니다 로그아웃".data, 1⟩ = true ∧
    is_logged_in_mall ⟨"로그인 해주세요".data, 0⟩ = false ∧
    is_logged_in_aw ⟨1, 0, false⟩ = true ∧
    is_logged_in_aw ⟨0, 1, false⟩ = false :=
  ⟨(c6_is_logged_in ⟨"환영합니다 로그아웃".data, 1⟩ ⟨1, 0, false⟩).1 (by decide),
   (c6_is_logged_in ⟨"로그인 해주세요".data, 0⟩ ⟨1, 0, false⟩).2.1 (by decide) (by decide) rfl,
   (c6_is_logged_in ⟨"".data, 0⟩ ⟨1, 0, false⟩).2.2.1 (by decide),
   (c6_is_logged_in ⟨"".data, 0⟩ ⟨0, 1, false⟩).2.2.2 rfl (Or.inr rfl)⟩

/-! ## submit_post (tools/mall_auto_write.py:392-409; tools/auto_write.py:451-469) -/

/-- The page state at submission time: for each selector of the ordered
submit-selector list, whether that selector resolves to a clickable
element (and the click goes through); and whether the URL reached after
the click matches a post-detail pattern. -/
structure SubmitEnv where
  selHits : List Bool
  urlIsPostDetail : Bool

/-- Index of the first successful entry of an ordered candidate list
(first-match-wins, as both submit loops iterate their selector lists). -/
def firstHit : List Bool → Option Nat
  | [] => none
  | true :: _ => some 0
  | false :: bs => (firstHit bs).map (· + 1)

/-- tools/mall_auto_write.py:392-409 `submit_post` (the same structure as
the submit block of tools/auto_write.py:451-469): try the selectors in
order, click the first match, dismiss alerts and return; raise when no
selector matches.  On success it returns the index of the selector that
was clicked.  No property of the resulting URL is inspected. -/
def submit_post (env : SubmitEnv) : Except Unit Nat :=
  match firstHit env.selHits with
  | some i => .ok i
  | none => .error ()

/-- Counterexample to claim C5: a submission whose first selector matches
and is clicked, but whose resulting URL does not match any post-detail
pattern; `submit_post` still reports success, because neither script
checks the URL after clicking. -/
def envC5 : SubmitEnv := ⟨[true], false⟩

theorem c5_submit_cex :
    submit_post envC5 = .ok 0 ∧ envC5.urlIsPostDetail = false :=
  ⟨rfl, rfl⟩

theorem firstHit_some : ∀ (l : List Bool) i, firstHit l = some i →
    l[i]? = some true ∧ ∀ j, j < i → l[j]? = some false := by
  intro l
  induction l with
  | nil => intro i h; simp [firstHit] at h
  | cons b bs ih =>
    intro i h
    cases b with
    | true =>
      rw [show firstHit (true :: bs) = some 0 from rfl] at h
      obtain rfl : (0 : Nat) = i := Option.some.inj h
      exact ⟨by simp, fun j hj => by omega⟩
    | false =>
      rw [show firstHit (false :: bs) = (firstHit bs).map (· + 1) from rfl] at h
      rcases hfh : firstHit bs with _ | i'
      · rw [hfh] at h; simp at h
      · rw [hfh] at h
        simp only [Option.map_some', Option.some.injEq] at h
        subst h
        obtain ⟨h1, h2⟩ := ih i' hfh
        refine ⟨by simpa using h1, ?_⟩
        intro j hj
        match j with
        | 0 => simp
        | j' + 1 => simpa using h2 j' (by omega)

theorem firstHit_none : ∀ l : List Bool, (firstHit l = none ↔ ∀ b ∈ l, b = false) := by
  intro l
  induction l with
  | nil => simp [firstHit]
  | cons b bs ih =>
    cases b with
    | true => simp [firstHit]
    | false => simp [firstHit, ih]

/-- Claim C5, corrected: `submit_post` walks the ordered submit-selector
list and clicks the first matching affordance (first-match-wins), raising
a fatal error exactly when no selector matches; but success is reported
unconditionally after the click and alert dismissal — the resulting URL
is never compared against a post-detail pattern (the result is
independent of `urlIsPostDetail`). -/
theorem c5_submit_post (env : SubmitEnv) :
    (∀ i, submit_post env = .ok i →
      env.selHits[i]? = some true ∧ ∀ j, j < i → env.selHits[j]? = some false) ∧
    (submit_post env = .error () ↔ ∀ b ∈ env.selHits, b = false) ∧
    (∀ u, submit_post ⟨env.selHits, u⟩ = submit_post env) := by
  refine ⟨?_, ?_, fun u => rfl⟩
  · intro i h
    rcases hfh : firstHit env.selHits with _ | i'
    · rw [submit_post, hfh] at h; exact Except.noConfusion h
    · rw [submit_post, hfh] at h
      have : i' = i := Except.ok.inj h
      subst this
      exact firstHit_some env.selHits i' hfh
  · rw [submit_post]
    rcases hfh : firstHit env.selHits with _ | i'
    · simpa using (firstHit_none env.selHits).mp hfh
    · constructor
      · intro h; exact Except.noConfusion h
      · intro hall
        rw [(firstHit_none env.selHits).mpr hall] at hfh
        exact Option.noConfusion hfh

theorem c5_submit_post_witness :
    (([false, true] : List Bool)[1]? = some true ∧
      ∀ j, j < 1 → ([false, true] : List Bool)[j]? = some false) ∧
    (submit_post ⟨[], true⟩ = .error ()) :=
  ⟨(c5_submit_post ⟨[false, true], false⟩).1 1 rfl,
   (c5_submit_post ⟨[], true⟩).2.1.mpr (by simp)⟩

/-! ## ensure_write_page (tools/auto_write.py:364-383, tools/mall_auto_write.py:300-323) -/

/-- One navigation strategy attempt: loading the direct write URL, or
loading the listing page and clicking a write affordance. -/
inductive NavAttempt where
  | direct
  | listing
deriving DecidableEq

/-- What auto_write's `ensure_write_page` can observe: whether the title
field is found after loading the write URL directly, and whether
`goto_write_from_list` (listing page + write-button click, checked by the
same title-field probe) succeeds. -/
structure NavEnvA where
  directSubject : Bool
  listSubject : Bool
deriving DecidableEq

/-- tools/auto_write.py:364-383 `ensure_write_page`: load the write URL
and accept alerts; if `find_subject` sees a title field, done; otherwise
fall back to `goto_write_from_list`; raise when both fail.  The second
component records the strategies attempted, in order. -/
def ensure_write_page_aw (e : NavEnvA) : Except Unit Unit × List NavAttempt :=
  if e.directSubject then (.ok (), [.direct])
  else if e.listSubject then (.ok (), [.direct, .listing])
  else (.error (), [.direct, .listing])

/-- What mall_auto_write's `ensure_write_page` can observe: whether the
browser is already on a board_write.php URL, whether a listing URL was
passed (`args.list_url` may be None), whether `goto_write_from_list`
succeeds, and whether opening the write URL directly lands on
board_write.php — before and after the `ensure_login` retry. -/
structure NavEnvM where
  alreadyOnWrite : Bool
  hasListUrl : Bool
  listClick : Bool
  directFirst : Bool
  directAfterLogin : Bool
deriving DecidableEq

/-- tools/mall_auto_write.py:300-323 `ensure_write_page`: (A) pass if the
current URL is already a write page; (B) otherwise, when a listing URL is
available, try the listing page and its write button first; (C) only then
open the write URL directly, retrying once behind `ensure_login`; raise
when that still does not land on board_write.php.  The second component
records the strategies attempted, in order. -/
def ensure_write_page_mall (e : NavEnvM) : Except Unit Unit × List NavAttempt :=
  if e.alreadyOnWrite then (.ok (), [])
  else if e.hasListUrl && e.listClick then (.ok (), [.listing])
  else
    let pre : List NavAttempt := if e.hasListUrl then [.listing] else []
    if e.directFirst then (.ok (), pre ++ [.direct])
    else if e.directAfterLogin then (.ok (), pre ++ [.direct, .direct])
    else (.error (), pre ++ [.direct, .direct])

/-- Counterexample to claim C4: a run of mall_auto_write's
`ensure_write_page` (not already on the write page, listing URL given,
listing click works, direct URL also reachable) that succeeds through the
listing strategy alone — the direct write URL is never attempted first,
contradicting "first attempts the direct write URL". -/
def envC4 : NavEnvM := ⟨false, true, true, true, true⟩

theorem c4_ensure_write_page_cex :
    (ensure_write_page_mall envC4).2 = [NavAttempt.listing] ∧
    NavAttempt.direct ∉ (ensure_write_page_mall envC4).2 ∧
    (ensure_write_page_mall envC4).1 = .ok () := by
  refine ⟨rfl, ?_, rfl⟩
  rw [show (ensure_write_page_mall envC4).2 = [NavAttempt.listing] from rfl]
  simp

/-- Claim C4, corrected: auto_write's `ensure_write_page` does try the
direct write URL first, falls back to the listing-page write affordance
exactly when the title field is not detected after the direct load, and
raises the unreachable error only when both strategies fail.
mall_auto_write's `ensure_write_page`, however, tries the strategies in
the opposite order: when it is not already on a write page and a listing
URL is given, its first attempt is the listing click, and the direct URL
is only used as the fallback (with one login retry); its unreachable
error is likewise raised only after every strategy it attempts fails. -/
theorem c4_ensure_write_page (ea : NavEnvA) (em : NavEnvM) :
    ((ensure_write_page_aw ea).2.head? = some NavAttempt.direct) ∧
    (NavAttempt.listing ∈ (ensure_write_page_aw ea).2 ↔ ea.directSubject = false) ∧
    ((ensure_write_page_aw ea).1 = .error () ↔
      ea.directSubject = false ∧ ea.listSubject = false) ∧
    (em.alreadyOnWrite = false → em.hasListUrl = true →
      (ensure_write_page_mall em).2.head? = some NavAttempt.listing) ∧
    ((ensure_write_page_mall em).1 = .error () ↔
      em.alreadyOnWrite = false ∧ ¬(em.hasListUrl = true ∧ em.listClick = true) ∧
      em.directFirst = false ∧ em.directAfterLogin = false) := by
  obtain ⟨a1, a2⟩ := ea
  obtain ⟨m1, m2, m3, m4, m5⟩ := em
  cases a1 <;> cases a2 <;> cases m1 <;> cases m2 <;> cases m3 <;> cases m4 <;>
    cases m5 <;> decide

theorem c4_ensure_write_page_witness :
    (ensure_write_page_mall ⟨false, true, false, false, false⟩).2.head? =
      some NavAttempt.listing ∧
    (ensure_write_page_aw ⟨true, false⟩).2.head? = some NavAttempt.direct :=
  ⟨(c4_ensure_write_page ⟨true, false⟩ ⟨false, true, false, false, false⟩).2.2.2.1 rfl rfl,
   (c4_ensure_write_page ⟨true, false⟩ ⟨false, true, false, false, false⟩).1⟩

/-! ## Run outcomes and exit codes (tools/auto_write.py:388-495,
tools/mall_auto_write.py:466-516) -/

/-- The mandatory steps of one upload run, as an oracle: whether login
succeeds, whether the write form is reached, whether the title and body
fields are found and filled, and whether a submit affordance is found
and clicked. -/
structure RunSteps where
  login : Bool
  nav : Bool
  fillTitle : Bool
  fillBody : Bool
  findSubmit : Bool
deriving DecidableEq

/-- All mandatory steps succeed. -/
def stepsOk (st : RunSteps) : Bool :=
  st.login && st.nav && st.fillTitle && st.fillBody && st.findSubmit

/-- The try-block of tools/auto_write.py:401-474 `main` (excel path):
ensure_login, ensure_write_page, then `load_next_row`; when a pending row
exists, fill title and body, find and click submit, then `mark_done`.
Returns whether the row was marked done; a failed mandatory step raises
(`.error`). -/
def autoWriteBody (st : RunSteps) (ws : Worksheet) : Except Unit Bool :=
  if !st.login then .error () else
  if !st.nav then .error () else
  match load_next_row ws with
  | none => .ok false
  | some _ =>
    if !st.fillTitle then .error () else
    if !st.fillBody then .error () else
    if !st.findSubmit then .error () else
    .ok true

/-- tools/auto_write.py:388-495 `main`: the try-block above wrapped in
`except UnexpectedAlertPresentException` and `except Exception` handlers
that only log (lines 476-484) — every exception is swallowed, nothing
re-raises and `sys.exit` is never called, so the process exit code is 0
in all cases.  Result: (exit code, whether the row was marked done). -/
def autoWriteMain (st : RunSteps) (ws : Worksheet) : Nat × Bool :=
  match autoWriteBody st ws with
  | .ok md => (0, md)
  | .error _ => (0, false)

/-- tools/mall_auto_write.py:466-516 `main`: `load_next_row` first (return
with nothing to do when no row is pending), then login, navigation, fill
and submit inside a try whose only handler re-raises
(`except UnexpectedAlertPresentException: ... raise`), so any mandatory
failure propagates and the interpreter exits non-zero; `mark_done` runs
only after a successful submit.  Result: (exit code, marked done). -/
def mallMain (st : RunSteps) (ws : Worksheet) : Nat × Bool :=
  match load_next_row ws with
  | none => (0, false)
  | some _ =>
    if !st.login then (1, false) else
    if !st.nav then (1, false) else
    if !st.fillTitle then (1, false) else
    if !st.fillBody then (1, false) else
    if !st.findSubmit then (1, false) else
    (0, true)

/-- A queue with one pending row, for the C3 counterexample. -/
def wsC3 : Worksheet := ⟨[⟨some "T", some "B", none, none⟩]⟩

/-- The step oracle of a run whose navigation fails unrecoverably. -/
def stC3 : RunSteps := ⟨true, false, true, true, true⟩

/-- Counterexample to claim C3: in auto_write, a run with a pending queue
row and an unrecoverable navigation failure still exits with code 0 (the
catch-all handler logs the error and returns normally), contradicting
"the run aborts with a non-zero exit code"; the row is indeed left
unmarked. -/
theorem c3_exit_code_cex :
    (autoWriteMain stC3 wsC3).1 = 0 ∧
    stC3.nav = false ∧
    (load_next_row wsC3).isSome = true ∧
    (autoWriteMain stC3 wsC3).2 = false := by
  refine ⟨rfl, rfl, ?_, rfl⟩
  rw [show load_next_row wsC3 = some (2, pyStrip (cellStr (some "T")),
    pyStrip (cellStr (some "B"))) from by decide]
  rfl

/-- Claim C3, corrected: in mall_auto_write the claim holds — an
unrecoverable login/navigation/fill/submit failure aborts the run with a
non-zero exit code without marking the selected row done, and the exit
code is 0 exactly on success or when no pending row exists.  In
auto_write such a failure likewise leaves the row unmarked (mark_done is
only reached after a successful submit), but the exception is caught and
logged by the catch-all handler, so the process exits 0 even on failure. -/
theorem c3_exit_codes (st : RunSteps) (ws : Worksheet) :
    ((mallMain st ws).1 = 0 ↔ load_next_row ws = none ∨ stepsOk st = true) ∧
    ((mallMain st ws).2 = true ↔ (load_next_row ws).isSome = true ∧ stepsOk st = true) ∧
    (stepsOk st = false → (mallMain st ws).2 = false ∧
      ((load_next_row ws).isSome = true → (mallMain st ws).1 ≠ 0)) ∧
    ((autoWriteMain st ws).1 = 0) ∧
    ((autoWriteMain st ws).2 = true ↔ (load_next_row ws).isSome = true ∧ stepsOk st = true) := by
  obtain ⟨l, n, ft, fb, fs⟩ := st
  rcases hl : load_next_row ws with _ | p <;>
    cases l <;> cases n <;> cases ft <;> cases fb <;> cases fs <;>
      simp [mallMain, autoWriteMain, autoWriteBody, stepsOk, hl]

theorem c3_exit_codes_witness :
    (mallMain stC3 wsC3).2 = false ∧
    ((load_next_row wsC3).isSome = true → (mallMain stC3 wsC3).1 ≠ 0) ∧
    (autoWriteMain stC3 wsC3).1 = 0 :=
  ⟨((c3_exit_codes stC3 wsC3).2.2.1 (by decide)).1,
   ((c3_exit_codes stC3 wsC3).2.2.1 (by decide)).2,
   (c3_exit_codes stC3 wsC3).2.2.2.1⟩

/-! ## create_contents title pipeline (tools/create_contents.py:139-172) -/

/-- One pass of `re.sub(r"\s+", " ", t)`: every maximal whitespace run
becomes a single space.  The flag records whether the scan stands inside
a whitespace run whose space was already emitted. -/
def collapseAux : Bool → List Char → List Char
  | _, [] => []
  | inWs, c :: cs =>
    if pyIsSpace c then
      if inWs then collapseAux true cs else ' ' :: collapseAux true cs
    else c :: collapseAux false cs

/-- tools/create_contents.py:144 `re.sub(r"\s+", " ", t)`. -/
def collapse (l : List Char) : List Char := collapseAux false l

/-- Python `str.replace(w, "")` (left-to-right, skipping past each
match), fuelled by the remaining scan length; `replaceAll` below always
supplies enough fuel, and the scripts only call it with non-empty `w`. -/
def replaceAllFuel (w : List Char) : Nat → List Char → List Char
  | _, [] => []
  | 0, l => l
  | fuel + 1, c :: cs =>
    if w.isPrefixOf (c :: cs) then
      replaceAllFuel w fuel ((c :: cs).drop w.length)
    else c :: replaceAllFuel w fuel cs

/-- Python `hay.replace(w, "")`. -/
def replaceAll (w hay : List Char) : List Char := replaceAllFuel w hay.length hay

/-- tools/create_contents.py:139-145 `sanitize_title`: strip, delete each
forbidden word ("100% 예방", "충격", "완치", in order), then collapse
whitespace runs. -/
def sanitize_title (t : List Char) : List Char :=
  collapse (replaceAll "완치".data (replaceAll "충격".data
    (replaceAll "100% 예방".data (pyStripL t))))

/-- tools/create_contents.py:153: the suffix `" " + "가볍게 시작해 보세요"`
appended to too-short titles. -/
def TITLE_PAD : List Char := (" " ++ "가볍게 시작해 보세요").data

/-- tools/create_contents.py:152-155: the padding step of
`clip_title_len` (TITLE_MIN = 22, TITLE_MAX = 30 from lines 26-27). -/
def clipPad (t : List Char) : List Char :=
  if t.length < 22 then
    (if (t ++ TITLE_PAD).length > 30 then (t ++ TITLE_PAD).take 30 else t ++ TITLE_PAD)
  else t

/-- tools/create_contents.py:147-156 `clip_title_len`: truncate to
TITLE_MAX = 30, then pad when shorter than TITLE_MIN = 22 (re-truncating
when the pad overshoots). -/
def clip_title_len (title : List Char) : List Char :=
  clipPad (if title.length > 30 then title.take 30 else title)

/-- tools/create_contents.py:167-172 `wrap_title_with_categories`:
prepend `[cat1/cat2] ` unless already present, then sanitize and clip. -/
def wrap_title_with_categories (title cat1 cat2 : List Char) : List Char :=
  let pre := "[".data ++ cat1 ++ "/".data ++ cat2 ++ "] ".data
  let t := if pre.isPrefixOf title then title else pre ++ title
  clip_title_len (sanitize_title t)

/-- The category prefix produced for `cat1 = "생활습관 관리"`,
`cat2 = "운동 습관"` (16 code points, trailing space included). -/
def titlePre : List Char := "[생활습관 관리/운동 습관] ".data

/-- `titlePre` without its trailing space (15 code points). -/
def titlePreCore : List Char := "[생활습관 관리/운동 습관]".data

theorem titlePre_split (r : List Char) :
    titlePre ++ r = titlePreCore ++ (' ' :: r) := by
  rw [show titlePre = titlePreCore ++ [' '] from rfl, List.append_assoc]
  rfl

theorem rstripL_append (a b : List Char) :
    rstripL (a ++ b) = if (rstripL b).isEmpty then rstripL a else a ++ rstripL b := by
  show ((a ++ b).reverse.dropWhile pyIsSpace).reverse = _
  rw [List.reverse_append, List.dropWhile_append]
  by_cases h : (b.reverse.dropWhile pyIsSpace).isEmpty
  · rw [if_pos h]
    have h2 : (rstripL b).isEmpty = true := by
      rw [rstripL, List.isEmpty_iff, List.reverse_eq_nil_iff, ← List.isEmpty_iff]
      exact h
    rw [if_pos h2]
    rfl
  · rw [if_neg h]
    have h2 : ¬(rstripL b).isEmpty = true := by
      rw [rstripL, List.isEmpty_iff, List.reverse_eq_nil_iff, ← List.isEmpty_iff]
      exact h
    rw [if_neg h2, List.reverse_append, List.reverse_reverse]
    rfl

theorem rstripL_cons_space (r : List Char) :
    rstripL (' ' :: r) = if (rstripL r).isEmpty then [] else ' ' :: rstripL r := by
  rw [show (' ' :: r) = [' '] ++ r from rfl, rstripL_append [' '] r]
  by_cases h : (rstripL r).isEmpty
  · rw [if_pos h, if_pos h]
    rfl
  · rw [if_neg h, if_neg h]
    rfl

theorem rstripL_titlePre (r : List Char) :
    rstripL (titlePre ++ r) =
      if (rstripL r).isEmpty then titlePreCore else titlePre ++ rstripL r := by
  rw [titlePre_split, rstripL_append titlePreCore (' ' :: r), rstripL_cons_space]
  by_cases h : (rstripL r).isEmpty
  · rw [if_pos h, if_pos h]
    rfl
  · rw [if_neg h, if_neg h]
    show titlePreCore ++ (' ' :: rstripL r) = titlePre ++ rstripL r
    exact (titlePre_split _).symm

theorem replaceAllFuel_append (w : List Char) (hw : w ≠ [])
    (p : List Char) (hp : ∀ c ∈ p, w.head? ≠ some c) :
    ∀ (fuel : Nat) (r : List Char),
      replaceAllFuel w (p.length + fuel) (p ++ r) = p ++ replaceAllFuel w fuel r := by
  induction p with
  | nil => intro fuel r; simp
  | cons c p' ih =>
    intro fuel r
    obtain ⟨wh, wt, rfl⟩ := List.exists_cons_of_ne_nil hw
    have hne : wh ≠ c := by
      intro hcontra
      exact hp c (List.mem_cons_self c p') (by rw [hcontra]; rfl)
    have hpref : (wh :: wt).isPrefixOf (c :: (p' ++ r)) = false := by
      show (wh == c && wt.isPrefixOf (p' ++ r)) = false
      rw [beq_eq_false_iff_ne.mpr hne, Bool.false_and]
    have hlen : (c :: p').length + fuel = (p'.length + fuel) + 1 := by
      simp only [List.length_cons]
      omega
    rw [hlen]
    have heq : replaceAllFuel (wh :: wt) ((p'.length + fuel) + 1) (c :: (p' ++ r)) =
        if (wh :: wt).isPrefixOf (c :: (p' ++ r)) then
          replaceAllFuel (wh :: wt) (p'.length + fuel) ((c :: (p' ++ r)).drop (wh :: wt).length)
        else c :: replaceAllFuel (wh :: wt) (p'.length + fuel) (p' ++ r) := rfl
    rw [show (c :: p') ++ r = c :: (p' ++ r) from rfl, heq, hpref]
    simp only [Bool.false_eq_true, if_false]
    exact congrArg (c :: ·) (ih (fun c' hc' => hp c' (List.mem_cons_of_mem c hc')) fuel r)

theorem replaceAll_append (w : List Char) (hw : w ≠ [])
    (p : List Char) (hp : ∀ c ∈ p, w.head? ≠ some c) (r : List Char) :
    replaceAll w (p ++ r) = p ++ replaceAll w r := by
  rw [replaceAll, replaceAll, List.length_append]
  exact replaceAllFuel_append w hw p hp r.length r

theorem collapseAux_titlePre (x : List Char) :
    collapseAux false (titlePre ++ x) = titlePreCore ++ ' ' :: collapseAux true x := rfl

theorem clipPad_len (t : List Char) (h15 : 15 ≤ t.length) (h30 : t.length ≤ 30) :
    22 ≤ (clipPad t).length ∧ (clipPad t).length ≤ 30 := by
  have hpad : TITLE_PAD.length = 12 := rfl
  rw [clipPad]
  by_cases h : t.length < 22
  · rw [if_pos h]
    by_cases h2 : (t ++ TITLE_PAD).length > 30
    · rw [if_pos h2]
      rw [List.length_append, hpad] at h2
      rw [List.length_take, List.length_append, hpad]
      constructor <;> omega
    · rw [if_neg h2]
      rw [List.length_append, hpad] at h2 ⊢
      constructor <;> omega
  · rw [if_neg h]
    exact ⟨by omega, h30⟩

theorem clip_title_len_length (t : List Char) (h : 15 ≤ t.length) :
    22 ≤ (clip_title_len t).length ∧ (clip_title_len t).length ≤ 30 := by
  rw [clip_title_len]
  by_cases h1 : t.length > 30
  · rw [if_pos h1]
    exact clipPad_len _ (by rw [List.length_take]; omega) (by rw [List.length_take]; omega)
  · rw [if_neg h1]
    exact clipPad_len t h (by omega)

theorem clipPad_keeps_lead (p t : List Char) (hp : p <+: t) (hlen : p.length ≤ 30) :
    p <+: clipPad t := by
  rw [clipPad]
  by_cases h : t.length < 22
  · rw [if_pos h]
    have h2 : p <+: t ++ TITLE_PAD := hp.trans (List.prefix_append t TITLE_PAD)
    by_cases h3 : (t ++ TITLE_PAD).length > 30
    · rw [if_pos h3]
      obtain ⟨u, hu⟩ := h2
      rw [← hu, List.take_append_eq_append_take, List.take_of_length_le hlen]
      exact List.prefix_append p _
    · rw [if_neg h3]
      exact h2
  · rw [if_neg h]
    exact hp

theorem clip_title_len_keeps_lead (p t : List Char) (hp : p <+: t) (hlen : p.length ≤ 30) :
    p <+: clip_title_len t := by
  rw [clip_title_len]
  by_cases h : t.length > 30
  · rw [if_pos h]
    refine clipPad_keeps_lead p _ ?_ hlen
    obtain ⟨u, hu⟩ := hp
    rw [← hu, List.take_append_eq_append_take, List.take_of_length_le hlen]
    exact List.prefix_append p _
  · rw [if_neg h]
    exact clipPad_keeps_lead p t hp hlen

/-- Claim C7: for every raw model-produced title, the title generator
invoked with cat1 = "생활습관 관리" and cat2 = "운동 습관" (that is,
`wrap_title_with_categories`, the composition of prefixing, `sanitize_title`
and `clip_title_len` used by `generate_post`) yields a final title that
starts with the prefix "[생활습관 관리/운동 습관] " and whose total
length lies between 22 and 30 code points inclusive. -/
theorem c7_wrap_title (raw : List Char) :
    titlePre <+: wrap_title_with_categories raw "생활습관 관리".data "운동 습관".data ∧
    22 ≤ (wrap_title_with_categories raw "생활습관 관리".data "운동 습관".data).length ∧
    (wrap_title_with_categories raw "생활습관 관리".data "운동 습관".data).length ≤ 30 := by
  have hwrap : wrap_title_with_categories raw "생활습관 관리".data "운동 습관".data =
      clip_title_len (sanitize_title
        (if titlePre.isPrefixOf raw then raw else titlePre ++ raw)) := rfl
  obtain ⟨r, hr⟩ : ∃ r, (if titlePre.isPrefixOf raw then raw else titlePre ++ raw) =
      titlePre ++ r := by
    by_cases h : titlePre.isPrefixOf raw
    · rw [if_pos h]
      obtain ⟨u, hu⟩ := List.isPrefixOf_iff_prefix.mp h
      exact ⟨u, hu.symm⟩
    · rw [if_neg h]
      exact ⟨raw, rfl⟩
  rw [hwrap, hr]
  have hst : pyStripL (titlePre ++ r) =
      if (rstripL r).isEmpty then titlePreCore else titlePre ++ rstripL r := by
    rw [pyStripL, show lstripL (titlePre ++ r) = titlePre ++ r from rfl, rstripL_titlePre]
  by_cases hcase : (rstripL r).isEmpty
  · have hsan : sanitize_title (titlePre ++ r) = titlePreCore := by
      rw [sanitize_title, hst, if_pos hcase]
      rfl
    rw [hsan]
    refine ⟨by decide, by decide, by decide⟩
  · have hsan : sanitize_title (titlePre ++ r) =
        titlePre ++ collapseAux true (replaceAll "완치".data (replaceAll "충격".data
          (replaceAll "100% 예방".data (rstripL r)))) := by
      rw [sanitize_title, hst, if_neg hcase,
        replaceAll_append "100% 예방".data (by decide) titlePre (by decide),
        replaceAll_append "충격".data (by decide) titlePre (by decide),
        replaceAll_append "완치".data (by decide) titlePre (by decide),
        collapse, collapseAux_titlePre, ← titlePre_split]
    rw [hsan]
    have h15 : 15 ≤ (titlePre ++ collapseAux true (replaceAll "완치".data
        (replaceAll "충격".data (replaceAll "100% 예방".data (rstripL r))))).length := by
      rw [List.length_append, show titlePre.length = 16 from rfl]
      omega
    exact ⟨clip_title_len_keeps_lead titlePre _ (List.prefix_append _ _) (by decide),
      (clip_title_len_length _ h15).1, (clip_title_len_length _ h15).2⟩

/-! ## generate_post disclaimer insertion (tools/create_contents.py:177-195) -/

/-- tools/create_contents.py:188-191: the fixed disclaimer string
(Python's adjacent string literals concatenate into one line). -/
def DISCLAIMER : List Char :=
  ("이 글은 일반적인 건강 정보를 제공하기 위한 것이며, 의료적 진단이나 치료를 대신하지 않습니다. " ++
    "개인별 상태에 따라 전문가 상담이 필요할 수 있습니다.").data

/-- tools/create_contents.py:192-193: the disclaimer-insertion step of
`generate_post` — `if disclaimer not in body: body = body.rstrip() +
"\n\n" + disclaimer`, applied to the model's body output. -/
def ensure_disclaimer (body : List Char) : List Char :=
  if containsSub DISCLAIMER body then body
  else rstripL body ++ ('\n' :: '\n' :: DISCLAIMER)

theorem containsSub_iff (needle hay : List Char) :
    containsSub needle hay = true ↔ ∃ i, needle <+: hay.drop i := by
  rw [containsSub, List.any_eq_true]
  constructor
  · rintro ⟨s, hs, hpre⟩
    rw [List.mem_tails] at hs
    obtain ⟨t, ht⟩ := hs
    refine ⟨t.length, ?_⟩
    rw [← ht, List.drop_left]
    exact List.isPrefixOf_iff_prefix.mp hpre
  · rintro ⟨i, hpre⟩
    refine ⟨hay.drop i, ?_, List.isPrefixOf_iff_prefix.mpr hpre⟩
    rw [List.mem_tails]
    exact List.drop_suffix i hay

/-- `str.rstrip()` returns a leading segment of its input. -/
theorem rstripL_isLead (l : List Char) : rstripL l <+: l := by
  obtain ⟨t, ht⟩ := List.dropWhile_suffix (l := l.reverse) pyIsSpace
  refine ⟨t.reverse, ?_⟩
  have h2 := congrArg List.reverse ht
  rw [List.reverse_append] at h2
  simpa [rstripL] using h2

/-- A prefix of `a ++ c` no longer than `a` is a prefix of `a`. -/
theorem isLead_of_append {p a c : List Char} (h : p <+: a ++ c)
    (hl : p.length ≤ a.length) : p <+: a := by
  rw [List.prefix_iff_eq_take] at h
  rw [List.take_append_eq_append_take, Nat.sub_eq_zero_of_le hl, List.take_zero,
    List.append_nil] at h
  rw [List.prefix_iff_eq_take]
  exact h

/-- A model body that already carries the disclaimer twice, for the C8
counterexample. -/
def bodyC8 : List Char := DISCLAIMER ++ DISCLAIMER

/-- Counterexample to claim C8: when the model output already contains
the disclaimer (here: twice), `generate_post` leaves the body unchanged,
so the final body contains the disclaimer at two distinct positions —
not exactly once. -/
theorem c8_disclaimer_cex :
    ensure_disclaimer bodyC8 = bodyC8 ∧
    ¬ ∃! i, DISCLAIMER <+: (ensure_disclaimer bodyC8).drop i := by
  have hc : containsSub DISCLAIMER bodyC8 = true := by
    rw [containsSub_iff]
    exact ⟨0, by rw [List.drop_zero]; exact List.prefix_append DISCLAIMER DISCLAIMER⟩
  have he : ensure_disclaimer bodyC8 = bodyC8 := by
    rw [ensure_disclaimer, if_pos hc]
  refine ⟨he, ?_⟩
  rw [he]
  rintro ⟨i, hi, huniq⟩
  have h0 : DISCLAIMER <+: bodyC8.drop 0 := by
    rw [List.drop_zero]
    exact List.prefix_append DISCLAIMER DISCLAIMER
  have hL : DISCLAIMER <+: bodyC8.drop DISCLAIMER.length := by
    rw [show bodyC8 = DISCLAIMER ++ DISCLAIMER from rfl, List.drop_left]
  have e0 := huniq 0 h0
  have eL := huniq DISCLAIMER.length hL
  rw [← e0] at eL
  exact absurd eL (by decide)

/-- Claim C8, corrected: the body produced by `generate_post` always
contains the fixed disclaimer at least once, and the disclaimer-insertion
step is idempotent (a second application leaves the body unchanged); when
the raw model output does not already contain the disclaimer, the final
body contains it exactly once — but a model output that already carries
the disclaimer more than once is left as is, so "exactly once" does not
hold for every model output. -/
theorem c8_ensure_disclaimer (b : List Char) :
    (∃ i, DISCLAIMER <+: (ensure_disclaimer b).drop i) ∧
    ensure_disclaimer (ensure_disclaimer b) = ensure_disclaimer b ∧
    (containsSub DISCLAIMER b = false →
      ∃! i, DISCLAIMER <+: (ensure_disclaimer b).drop i) := by
  by_cases hc : containsSub DISCLAIMER b = true
  · have he : ensure_disclaimer b = b := by rw [ensure_disclaimer, if_pos hc]
    refine ⟨?_, ?_, ?_⟩
    · rw [he]
      exact (containsSub_iff _ _).mp hc
    · rw [he]
      exact he
    · intro hfalse
      rw [hc] at hfalse
      exact Bool.noConfusion hfalse
  · have hcf : containsSub DISCLAIMER b = false := Bool.eq_false_iff.mpr hc
    have he : ensure_disclaimer b = rstripL b ++ ('\n' :: '\n' :: DISCLAIMER) := by
      rw [ensure_disclaimer, if_neg hc]
    set x := rstripL b with hx
    set L := x ++ ('\n' :: '\n' :: DISCLAIMER) with hLdef
    have hsplit2 : L = (x ++ ['\n', '\n']) ++ DISCLAIMER := by
      rw [hLdef, List.append_assoc]
      rfl
    have hxnl : (x ++ ['\n', '\n']).length = x.length + 2 := by
      simp only [List.length_append, List.length_cons, List.length_nil]
    have hocc : DISCLAIMER <+: L.drop (x.length + 2) := by
      rw [hsplit2, ← hxnl, List.drop_left]
    have hDpos : 0 < DISCLAIMER.length := by decide
    have huniq : ∀ y, DISCLAIMER <+: L.drop y → y = x.length + 2 := by
      intro y hy
      by_cases hge : x.length + 2 ≤ y
      · have hdrop : L.drop y = DISCLAIMER.drop (y - (x.length + 2)) := by
          rw [hsplit2, List.drop_append_eq_append_drop,
            List.drop_eq_nil_of_le (by omega), List.nil_append, hxnl]
        rw [hdrop] at hy
        have hlen := hy.length_le
        rw [List.length_drop] at hlen
        omega
      · exfalso
        by_cases hin : y + DISCLAIMER.length ≤ x.length
        · -- an occurrence entirely inside rstrip(b) would be one inside b
          have hyx : y ≤ x.length := by omega
          have hdropL : L.drop y = x.drop y ++ ('\n' :: '\n' :: DISCLAIMER) := by
            rw [hLdef, List.drop_append_eq_append_drop, Nat.sub_eq_zero_of_le hyx,
              List.drop_zero]
          have hpx : DISCLAIMER <+: x.drop y :=
            isLead_of_append (by rw [← hdropL]; exact hy)
              (by rw [List.length_drop]; omega)
          obtain ⟨u, hu⟩ := rstripL_isLead b
          have hb : DISCLAIMER <+: b.drop y := by
            rw [← hu, List.drop_append_eq_append_drop, Nat.sub_eq_zero_of_le hyx,
              List.drop_zero]
            exact hpx.trans (List.prefix_append _ _)
          have : containsSub DISCLAIMER b = true := (containsSub_iff _ _).mpr ⟨y, hb⟩
          rw [hcf] at this
          exact Bool.noConfusion this
        · -- the occurrence would cover one of the inserted newlines,
          -- but the disclaimer contains no newline
          by_cases hyx : y ≤ x.length
          · have hdropL : L.drop y = x.drop y ++ ('\n' :: '\n' :: DISCLAIMER) := by
              rw [hLdef, List.drop_append_eq_append_drop, Nat.sub_eq_zero_of_le hyx,
                List.drop_zero]
            rw [hdropL] at hy
            obtain ⟨t, ht⟩ := hy
            have hxdlen : (x.drop y).length ≤ DISCLAIMER.length := by
              rw [List.length_drop]
              omega
            have hxd : x.drop y <+: DISCLAIMER :=
              isLead_of_append (c := t) (by rw [ht]; exact List.prefix_append _ _) hxdlen
            obtain ⟨t2, ht2⟩ := hxd
            have ht2len : (x.drop y).length + t2.length = DISCLAIMER.length := by
              rw [← ht2, List.length_append]
            have ht2ne : t2 ≠ [] := by
              intro h0
              rw [h0, List.length_nil, List.length_drop] at ht2len
              omega
            obtain ⟨c2, t2', rfl⟩ := List.exists_cons_of_ne_nil ht2ne
            rw [← ht2, List.append_assoc] at ht
            have ht3 : (c2 :: t2') ++ t = '\n' :: '\n' :: (x.drop y ++ c2 :: t2') :=
              List.append_cancel_left ht
            have hc2 : c2 = '\n' := by
              have hhead := congrArg List.head? ht3
              exact Option.some.inj hhead
            have hmem : ('\n' : Char) ∈ DISCLAIMER := by
              rw [← ht2, ← hc2]
              exact List.mem_append_right _ (List.mem_cons_self _ _)
            exact absurd hmem (by decide)
          · have hy1 : y = x.length + 1 := by omega
            have hdropL : L.drop y = '\n' :: DISCLAIMER := by
              rw [hLdef, hy1, List.drop_append_eq_append_drop,
                List.drop_eq_nil_of_le (by omega), List.nil_append,
                show x.length + 1 - x.length = 1 from by omega]
              rfl
            rw [hdropL] at hy
            obtain ⟨t, ht⟩ := hy
            have hhead := congrArg List.head? ht
            rw [show DISCLAIMER = '이' :: DISCLAIMER.tail from rfl,
              List.cons_append] at hhead
            have : ('이' : Char) = '\n' := Option.some.inj hhead
            exact absurd this (by decide)
    refine ⟨?_, ?_, ?_⟩
    · rw [he]
      exact ⟨x.length + 2, hocc⟩
    · have hcl : containsSub DISCLAIMER L = true :=
        (containsSub_iff _ _).mpr ⟨x.length + 2, hocc⟩
      rw [he, ensure_disclaimer, if_pos hcl]
    · intro _
      rw [he]
      exact ⟨x.length + 2, hocc, huniq⟩

theorem c8_ensure_disclaimer_witness :
    (∃ i, DISCLAIMER <+: (ensure_disclaimer "본문입니다.".data).drop i) ∧
    ensure_disclaimer (ensure_disclaimer "본문입니다.".data) =
      ensure_disclaimer "본문입니다.".data ∧
    (∃! i, DISCLAIMER <+: (ensure_disclaimer "본문입니다.".data).drop i) :=
  ⟨(c8_ensure_disclaimer "본문입니다.".data).1,
   (c8_ensure_disclaimer "본문입니다.".data).2.1,
   (c8_ensure_disclaimer "본문입니다.".data).2.2 (by decide)⟩
